import Mathlib

/-!
Verification of the ceil-dlp policy resolution and redaction engine.

This file gives a shallow embedding in Lean 4 of the core of the ceil-dlp
repository (a data-loss-prevention decision layer for LLM requests) and
proves or refutes the frozen claims about it.

Embedded source files:
  ceil_dlp/redaction.py          (apply_redaction, redact_pdf)
  ceil_dlp/middleware.py         (CeilDLPHandler: _should_apply_policy,
                                  _pre_call_hook, async_pre_call_hook,
                                  _extract_text_from_messages,
                                  _extract_images_from_messages,
                                  _replace_text_in_messages)
  ceil_dlp/detectors/presidio_adapter.py (detect_with_presidio)
  ceil_dlp/detectors/image_detector.py   (detect_pii_in_image)

Modules of the repository that are referenced but not present in the
source tree (config.py, audit.py, detectors/model_matcher.py,
detectors/pdf_detector.py) are modelled from the specification; each such
definition carries a doc comment starting with: Modelled from the spec.

External collaborators (the Presidio analyzer, PIL, pdfium, base64) are
modelled as abstract environment functions, since the repository treats
them as external interfaces.

Python idioms are embedded as follows: strings are Lean String values and
character-offset slicing acts on String.data (a list of characters, as
Python slices by code point); dictionaries that the code iterates in
insertion order are association lists; in-place mutation of the kwargs
dictionary is explicit state passing; a Python exception crossing a
boundary is an Except.error value.
-/

/-! ## Match model (ceil_dlp data model, section 3 of the spec)

A located sensitive-data occurrence is a tuple (text, start, end) of the
matched text and its character offsets; a detection map sends a category
name to its ordered list of matches, in dictionary insertion order. -/

/-- A located match: (matched text, start offset, end offset), exactly the
Python tuple shape used throughout the repository. -/
abbrev DlpMatch := String × Nat × Nat

/-- Start offset of a match. -/
def mstart (m : DlpMatch) : Nat := m.2.1

/-- End offset of a match. -/
def mstop (m : DlpMatch) : Nat := m.2.2

/-- A detection map: category name to ordered matches, modelling the
Python dict in insertion order. -/
abbrev DetectionMap := List (String × List DlpMatch)

/-- Python dict assignment d[k] = v on an association list: replace the
value at an existing key in place, else append the new key at the end. -/
def setAssoc {α : Type} : List (String × α) → String → α → List (String × α)
  | [], k, v => [(k, v)]
  | (k', v') :: rest, k, v =>
    if k' = k then (k', v) :: rest else (k', v') :: setAssoc rest k v

/-- The idiom `if k not in d: d[k] = []` followed by `d[k].extend(ms)`:
append matches to an existing category or add the category at the end. -/
def appendAssoc (m : DetectionMap) (k : String) (ms : List DlpMatch) : DetectionMap :=
  if m.any (fun p => p.1 = k) then
    m.map (fun p => if p.1 = k then (p.1, p.2 ++ ms) else p)
  else m ++ [(k, ms)]

/-- The image-merge loop of middleware.py lines 135-138: every category of
the extra map is appended into the base map. -/
def mergeDetections (base extra : DetectionMap) : DetectionMap :=
  extra.foldl (fun acc p => appendAssoc acc p.1 p.2) base

/-! ## Model pattern matcher

Modelled from the spec: detectors/model_matcher.py (matches_model) is not
under src/. Spec section 4.1: a pattern is a regular expression anchored
to fully match the model identifier; a plain literal matches only itself;
a pattern that fails to compile never matches (fails closed). The model
implements the regex fragment exercised by the spec (literal characters,
the any-character dot, and the Kleene star on the preceding atom); a
malformed pattern (a dangling star) compiles to nothing and never
matches. -/

/-- One regex atom: a literal character or the any-character dot. -/
inductive RAtom : Type
  | lit (c : Char)
  | dot
  deriving DecidableEq

/-- A compiled token: an atom together with whether it is starred. -/
abbrev RToken := RAtom × Bool

/-- Compile a pattern, attaching a star to the preceding atom; a leading
or doubled star is a compile failure (none). -/
def compileRegex : List Char → Option (List RToken)
  | [] => some []
  | '*' :: _ => none
  | c :: '*' :: rest =>
    (compileRegex rest).map (fun ts => ((if c = '.' then RAtom.dot else RAtom.lit c), true) :: ts)
  | c :: rest =>
    (compileRegex rest).map (fun ts => ((if c = '.' then RAtom.dot else RAtom.lit c), false) :: ts)

/-- Whether an atom accepts one character. -/
def amatch : RAtom → Char → Bool
  | RAtom.lit c, c' => c = c'
  | RAtom.dot, _ => true

/-- Anchored full matching of a compiled pattern against a string, with
explicit fuel; every recursive call shrinks the joint length of pattern
and string, so fuel of that joint length suffices. -/
def rmatchAux : Nat → List RToken → List Char → Bool
  | 0, _, _ => false
  | _ + 1, [], [] => true
  | _ + 1, [], _ :: _ => false
  | _ + 1, (_, false) :: _, [] => false
  | fuel + 1, (a, false) :: ts, c :: cs => amatch a c && rmatchAux fuel ts cs
  | fuel + 1, (_, true) :: ts, [] => rmatchAux fuel ts []
  | fuel + 1, (a, true) :: ts, c :: cs =>
    rmatchAux fuel ts (c :: cs) || (amatch a c && rmatchAux fuel ((a, true) :: ts) cs)

/-- Modelled from the spec: matches_model of detectors/model_matcher.py.
A pattern is interpreted as a regular expression anchored to fully match
the model identifier; a compile failure means the pattern never
matches. -/
def matchesModel (model pattern : String) : Bool :=
  match compileRegex pattern.data with
  | none => false
  | some ts => rmatchAux (ts.length + model.data.length + 1) ts model.data

/-! ## Policy resolver (middleware.py lines 67-95) -/

/-- Modelled from the spec: the ModelRules record of config.py, optional
allow and block pattern lists; absence of a list is Python None. -/
structure ModelRules where
  allow : Option (List String) := none
  block : Option (List String) := none
  deriving DecidableEq

/-- Modelled from the spec: the per-category Policy record of config.py:
an action string, an enabled flag and optional model rules. -/
structure Policy where
  action : String
  enabled : Bool := true
  models : Option ModelRules := none
  deriving DecidableEq

/-- CeilDLPHandler._should_apply_policy, middleware.py lines 67-95:
no model rules means the policy always applies; a block-list match forces
application; otherwise an allow-list match exempts the model; otherwise
the policy applies exactly when no block list was configured. The Python
truthiness of the lists (None or empty both skip the loop) is the
getD [] together with List.any. -/
def shouldApplyPolicy (policy : Policy) (model : String) : Bool :=
  match policy.models with
  | none => true
  | some rules =>
    if (rules.block.getD []).any (fun pat => matchesModel model pat) then true
    else if (rules.allow.getD []).any (fun pat => matchesModel model pat) then false
    else rules.block.isNone

/-- C3: block patterns take precedence over allow patterns in
_should_apply_policy: any block-list match forces the policy to apply, no
matter what the allow list holds; in particular with
block = [openai/.*] and allow = [openai/gpt-4] the policy applies both to
openai/gpt-4 and to openai/gpt-3.5. -/
theorem c3_block_precedence :
    (∀ (policy : Policy) (rules : ModelRules) (model pat : String) (bl : List String),
      policy.models = some rules → rules.block = some bl → pat ∈ bl →
      matchesModel model pat = true →
      shouldApplyPolicy policy model = true)
    ∧ shouldApplyPolicy
        ⟨"block", true, some ⟨some ["openai/gpt-4"], some ["openai/.*"]⟩⟩
        "openai/gpt-4" = true
    ∧ shouldApplyPolicy
        ⟨"block", true, some ⟨some ["openai/gpt-4"], some ["openai/.*"]⟩⟩
        "openai/gpt-3.5" = true := by
  refine ⟨?_, by decide, by decide⟩
  intro policy rules model pat bl hmodels hblock hmem hmatch
  simp only [shouldApplyPolicy, hmodels, hblock, Option.getD_some]
  have hany : bl.any (fun p => matchesModel model p) = true :=
    List.any_eq_true.mpr ⟨pat, hmem, hmatch⟩
  simp [hany]

/-- Witness for C3: the universal part applied at the concrete policy with
block list containing the literal pattern m, which matches the model m. -/
theorem c3_block_precedence_witness :
    shouldApplyPolicy ⟨"block", true, some ⟨none, some ["m"]⟩⟩ "m" = true :=
  c3_block_precedence.1 ⟨"block", true, some ⟨none, some ["m"]⟩⟩
    ⟨none, some ["m"]⟩ "m" "m" ["m"] rfl rfl (by decide) (by decide)

/-- C4: _should_apply_policy returns true when the policy has no model
rules; and when rules are present but the model matches no pattern of
either list, it returns true exactly when no block list is configured. -/
theorem c4_default_direction :
    (∀ (policy : Policy) (model : String),
      policy.models = none → shouldApplyPolicy policy model = true)
    ∧ (∀ (policy : Policy) (rules : ModelRules) (model : String),
      policy.models = some rules →
      (∀ pat ∈ rules.block.getD [], matchesModel model pat = false) →
      (∀ pat ∈ rules.allow.getD [], matchesModel model pat = false) →
      (shouldApplyPolicy policy model = true ↔ rules.block = none)) := by
  constructor
  · intro policy model h
    simp [shouldApplyPolicy, h]
  · intro policy rules model hmodels hblock hallow
    have hb : (rules.block.getD []).any (fun pat => matchesModel model pat) = false := by
      rw [List.any_eq_false]
      intro pat hp
      simp [hblock pat hp]
    have ha : (rules.allow.getD []).any (fun pat => matchesModel model pat) = false := by
      rw [List.any_eq_false]
      intro pat hp
      simp [hallow pat hp]
    simp [shouldApplyPolicy, hmodels, hb, ha, Option.isNone_iff_eq_none]

/-- Witness for C4: both parts at concrete inputs. A policy without model
rules applies to openai/gpt-4; an allow-list-only policy whose list does
not match openai/gpt-4 also applies to it (block list absent). -/
theorem c4_default_direction_witness :
    shouldApplyPolicy ⟨"block", true, none⟩ "openai/gpt-4" = true
    ∧ (shouldApplyPolicy ⟨"block", true, some ⟨some ["self-hosted/.*"], none⟩⟩
        "openai/gpt-4" = true ↔ (none : Option (List String)) = none) :=
  ⟨c4_default_direction.1 ⟨"block", true, none⟩ "openai/gpt-4" rfl,
   c4_default_direction.2 ⟨"block", true, some ⟨some ["self-hosted/.*"], none⟩⟩
     ⟨some ["self-hosted/.*"], none⟩ "openai/gpt-4" rfl
     (by intro pat hp; simp at hp) (by decide)⟩

/-! ## Redaction engine (redaction.py lines 17-57, apply_redaction)

Text is sliced by character offset in Python, so the embedding works on
String.data, the list of characters. -/

/-- A flattened (category, match) pair, the element type of the
all_matches working list of apply_redaction. -/
abbrev TMatch := String × DlpMatch

/-- The replacement placeholder [REDACTED_<CATEGORY_UPPERCASE>] as a
character list; the category is uppercased character by character, which
is how Python str.upper acts on these category tags. -/
def phChars (category : String) : List Char :=
  "[REDACTED_".data ++ category.data.map Char.toUpper ++ "]".data

/-- One replacement step of the apply_redaction loop:
redacted_text[:start] + replacement + redacted_text[end:]. -/
def redactStep (txt : List Char) (p : TMatch) : List Char :=
  txt.take (mstart p.2) ++ phChars p.1 ++ txt.drop (mstop p.2)

/-- Stable insertion of one pair into a list kept in descending start
order: the new element goes in front of the first element whose start is
less than or equal to its own, so among equal starts the earlier element
of the original list stays earlier, exactly as Python's stable
list.sort(key=start, reverse=True). -/
def insertDesc (x : TMatch) : List TMatch → List TMatch
  | [] => [x]
  | y :: ys => if mstart y.2 ≤ mstart x.2 then x :: y :: ys else y :: insertDesc x ys

/-- Stable sort by start offset in descending order, modelling
all_matches.sort(key=lambda x: x[1][1], reverse=True). -/
def sortDesc (l : List TMatch) : List TMatch := l.foldr insertDesc []

/-- apply_redaction, redaction.py lines 17-57. One pass over the
detection dict collects the flattened (category, match) working list and
the audit record of matched texts for each non-empty category; the
working list is then sorted by start descending and every span replaced
right to left. -/
def applyRedaction (text : String) (detections : DetectionMap) :
    String × List (String × List String) :=
  let fold := detections.foldl
    (fun (acc : List TMatch × List (String × List String)) p =>
      if p.2.isEmpty then acc
      else (acc.1 ++ p.2.map (fun m => (p.1, m)),
            acc.2 ++ [(p.1, p.2.map (fun m => m.1))]))
    ([], [])
  (String.mk ((sortDesc fold.1).foldl redactStep text.data), fold.2)

/-- The flattened (category, match) pairs of a detection map, in
iteration order. -/
def allMatches (detections : DetectionMap) : List TMatch :=
  detections.flatMap (fun p => p.2.map (fun m => (p.1, m)))

/-- The audit record built by apply_redaction: original matched texts per
category, skipping categories whose match list is empty. -/
def itemsOf (detections : DetectionMap) : List (String × List String) :=
  (detections.filter (fun p => !p.2.isEmpty)).map
    (fun p => (p.1, p.2.map (fun m => m.1)))

/-- The claim-side reconstruction of the redacted text, consuming the
matches in descending start order: the last (leftmost) piece of text is
what precedes the current match, each span start..stop is replaced by its
placeholder, and the text after each match is kept verbatim. Feeding it
the sorted, pairwise-disjoint match list yields exactly
text[0:s_k] ++ ph_k ++ text[e_k:s_(k-1)] ++ ... ++ ph_1 ++ text[e_1:]. -/
def stitchDesc (txt : List Char) : List TMatch → List Char
  | [] => txt
  | p :: rest => stitchDesc (txt.take (mstart p.2)) rest ++ phChars p.1 ++ txt.drop (mstop p.2)

/-- Well-formed descending match chain below a bound: every span is
non-degenerate, ends within the bound, and each later span ends no later
than the current span starts. -/
def DescOK : Nat → List TMatch → Prop
  | _, [] => True
  | n, p :: rest => mstart p.2 < mstop p.2 ∧ mstop p.2 ≤ n ∧ DescOK (mstart p.2) rest

theorem descOK_mono {m n : Nat} {l : List TMatch} (h : DescOK m l) (hmn : m ≤ n) :
    DescOK n l := by
  cases l with
  | nil => trivial
  | cons p rest =>
    obtain ⟨h1, h2, h3⟩ := h
    exact ⟨h1, Nat.le_trans h2 hmn, h3⟩

/-- A fold of replacement steps over a chained match list touches only
the prefix it is chained below: the suffix v rides along unchanged. -/
theorem foldl_redactStep_append (l : List TMatch) :
    ∀ (u v : List Char), DescOK u.length l →
    List.foldl redactStep (u ++ v) l = List.foldl redactStep u l ++ v := by
  induction l with
  | nil => intro u v _; rfl
  | cons p rest ih =>
    intro u v h
    obtain ⟨hne, hub, hrest⟩ := h
    have hsu : mstart p.2 ≤ u.length := Nat.le_trans (Nat.le_of_lt hne) hub
    have hstep : redactStep (u ++ v) p = redactStep u p ++ v := by
      unfold redactStep
      rw [List.take_append_of_le_length hsu, List.drop_append_of_le_length hub]
      simp [List.append_assoc]
    rw [List.foldl_cons, List.foldl_cons, hstep]
    apply ih
    apply descOK_mono hrest
    unfold redactStep
    simp only [List.length_append, List.length_take]
    omega

/-- Fold of replacement steps equals the claim-side reconstruction on any
chained match list. -/
theorem foldl_redactStep_eq_stitchDesc (l : List TMatch) :
    ∀ txt : List Char, DescOK txt.length l →
    List.foldl redactStep txt l = stitchDesc txt l := by
  induction l with
  | nil => intro txt _; rfl
  | cons p rest ih =>
    intro txt h
    obtain ⟨hne, hub, hrest⟩ := h
    have hsu : mstart p.2 ≤ txt.length := Nat.le_trans (Nat.le_of_lt hne) hub
    have hlen : (txt.take (mstart p.2)).length = mstart p.2 := by
      simp [List.length_take]
      omega
    rw [List.foldl_cons]
    have hsplit : redactStep txt p =
        txt.take (mstart p.2) ++ (phChars p.1 ++ txt.drop (mstop p.2)) := by
      unfold redactStep
      simp [List.append_assoc]
    rw [hsplit]
    rw [foldl_redactStep_append rest _ _ (by rw [hlen]; exact hrest)]
    rw [ih (txt.take (mstart p.2)) (by rw [hlen]; exact hrest)]
    simp [stitchDesc]

/-- Inserting into the descending-sorted working list is a permutation of
consing. -/
theorem insertDesc_perm (x : TMatch) (l : List TMatch) :
    List.Perm (insertDesc x l) (x :: l) := by
  induction l with
  | nil => simp [insertDesc]
  | cons y ys ih =>
    by_cases h : mstart y.2 ≤ mstart x.2
    · simp [insertDesc, h]
    · simp only [insertDesc, if_neg h]
      exact (List.Perm.cons y ih).trans (List.Perm.swap x y ys)

/-- The sorted working list is a permutation of the input. -/
theorem sortDesc_perm (l : List TMatch) : List.Perm (sortDesc l) l := by
  induction l with
  | nil => simp [sortDesc]
  | cons x xs ih =>
    simp only [sortDesc, List.foldr_cons]
    exact (insertDesc_perm x (sortDesc xs)).trans (List.Perm.cons x ih)

/-- Insertion preserves descending order by start offset. -/
theorem pairwise_insertDesc (x : TMatch) (l : List TMatch)
    (h : l.Pairwise (fun a b => mstart b.2 ≤ mstart a.2)) :
    (insertDesc x l).Pairwise (fun a b => mstart b.2 ≤ mstart a.2) := by
  induction l with
  | nil => simp [insertDesc]
  | cons y ys ih =>
    rw [List.pairwise_cons] at h
    obtain ⟨hy, hys⟩ := h
    by_cases hle : mstart y.2 ≤ mstart x.2
    · simp only [insertDesc, if_pos hle]
      rw [List.pairwise_cons]
      refine ⟨?_, List.pairwise_cons.mpr ⟨hy, hys⟩⟩
      intro z hz
      rcases List.mem_cons.mp hz with rfl | hz'
      · exact hle
      · exact Nat.le_trans (hy z hz') hle
    · simp only [insertDesc, if_neg hle]
      rw [List.pairwise_cons]
      refine ⟨?_, ih hys⟩
      intro z hz
      have hz' := (insertDesc_perm x ys).mem_iff.mp hz
      rcases List.mem_cons.mp hz' with rfl | hz''
      · omega
      · exact hy z hz''

/-- The working list sorted by start descending is pairwise descending. -/
theorem pairwise_sortDesc (l : List TMatch) :
    (sortDesc l).Pairwise (fun a b => mstart b.2 ≤ mstart a.2) := by
  induction l with
  | nil => simp [sortDesc]
  | cons x xs ih =>
    simp only [sortDesc, List.foldr_cons]
    exact pairwise_insertDesc x (sortDesc xs) ih

/-- The collecting fold of apply_redaction in one named function: skip
empty categories, otherwise extend the flattened working list and record
the original matched texts. -/
def redactionScan (acc : List TMatch × List (String × List String))
    (p : String × List DlpMatch) : List TMatch × List (String × List String) :=
  if p.2.isEmpty then acc
  else (acc.1 ++ p.2.map (fun m => (p.1, m)),
        acc.2 ++ [(p.1, p.2.map (fun m => m.1))])

/-- The collecting fold produces exactly the flattened matches and the
per-category original texts of the non-empty categories. -/
theorem redactionScan_foldl (d : DetectionMap) :
    ∀ (a : List TMatch) (b : List (String × List String)),
    d.foldl redactionScan (a, b) = (a ++ allMatches d, b ++ itemsOf d) := by
  induction d with
  | nil => intro a b; simp [allMatches, itemsOf]
  | cons p rest ih =>
    intro a b
    rw [List.foldl_cons]
    by_cases hp : p.2.isEmpty
    · have hnil : p.2 = [] := List.isEmpty_iff.mp hp
      simp only [redactionScan, if_pos hp, ih]
      simp [allMatches, itemsOf, hnil]
    · simp only [redactionScan, if_neg hp, ih]
      simp only [allMatches, itemsOf, List.flatMap_cons, List.filter_cons]
      simp [hp, List.append_assoc]

/-- A descending-sorted, pairwise-disjoint list of non-degenerate
in-bounds matches forms a well-chained list. -/
theorem descOK_of_sorted (s : List TMatch)
    (hsort : s.Pairwise (fun a b => mstart b.2 ≤ mstart a.2))
    (hdisj : s.Pairwise (fun a b => mstop a.2 ≤ mstart b.2 ∨ mstop b.2 ≤ mstart a.2))
    (hne : ∀ p ∈ s, mstart p.2 < mstop p.2) :
    ∀ n : Nat, (∀ p ∈ s, mstop p.2 ≤ n) → DescOK n s := by
  induction s with
  | nil => intro n _; trivial
  | cons p rest ih =>
    intro n hub
    rw [List.pairwise_cons] at hsort hdisj
    obtain ⟨hsort1, hsort2⟩ := hsort
    obtain ⟨hdisj1, hdisj2⟩ := hdisj
    refine ⟨hne p (List.mem_cons_self p rest), hub p (List.mem_cons_self p rest), ?_⟩
    apply ih hsort2 hdisj2 (fun q hq => hne q (List.mem_cons_of_mem p hq))
    intro q hq
    have h1 := hsort1 q hq
    have h2 := hdisj1 q hq
    have h3 := hne p (List.mem_cons_self p rest)
    have h4 := hne q (List.mem_cons_of_mem p hq)
    rcases h2 with h2 | h2 <;> omega

/-- C1 (amended): for a detection map whose flattened matches are
pairwise non-overlapping, non-degenerate (start strictly below end) and
in-bounds, apply_redaction replaces every span by its placeholder and
preserves all text outside the spans (the stitchDesc reconstruction of
the descending-sorted match list), and the redacted text is invariant
under permutation of the category insertion order. The original claim,
without the non-degeneracy requirement, is refuted by
c1_redaction_offsets_counterexample. -/
theorem c1_redaction_offsets (text : String) (d : DetectionMap)
    (hdisj : (allMatches d).Pairwise
      (fun a b => mstop a.2 ≤ mstart b.2 ∨ mstop b.2 ≤ mstart a.2))
    (hne : ∀ p ∈ allMatches d, mstart p.2 < mstop p.2)
    (hub : ∀ p ∈ allMatches d, mstop p.2 ≤ text.length) :
    (applyRedaction text d).1 = String.mk (stitchDesc text.data (sortDesc (allMatches d)))
    ∧ ∀ d' : DetectionMap, List.Perm d d' →
      (applyRedaction text d').1 = (applyRedaction text d).1 := by
  have hfold : ∀ e : DetectionMap,
      (e.foldl redactionScan ([], [])).1 = allMatches e := by
    intro e
    rw [redactionScan_foldl e [] []]
    simp
  have hmain : ∀ e : DetectionMap, (applyRedaction text e).1 =
      String.mk (List.foldl redactStep text.data (sortDesc (allMatches e))) := by
    intro e
    show String.mk (List.foldl redactStep text.data
      (sortDesc (e.foldl redactionScan ([], [])).1)) = _
    rw [hfold e]
  constructor
  · rw [hmain d]
    have hperm := sortDesc_perm (allMatches d)
    have hsorted := pairwise_sortDesc (allMatches d)
    have hdisj' : (sortDesc (allMatches d)).Pairwise
        (fun a b => mstop a.2 ≤ mstart b.2 ∨ mstop b.2 ≤ mstart a.2) :=
      (hperm.pairwise_iff (fun h => h.symm)).mpr hdisj
    have hok : DescOK text.data.length (sortDesc (allMatches d)) := by
      apply descOK_of_sorted _ hsorted hdisj'
        (fun q hq => hne q (hperm.mem_iff.mp hq))
      intro q hq
      exact hub q (hperm.mem_iff.mp hq)
    rw [foldl_redactStep_eq_stitchDesc _ _ hok]
  · intro d' hdd
    rw [hmain d, hmain d']
    have hflat : List.Perm (allMatches d') (allMatches d) :=
      List.Perm.flatMap_right _ hdd.symm
    have hsortperm : List.Perm (sortDesc (allMatches d')) (sortDesc (allMatches d)) :=
      ((sortDesc_perm _).trans hflat).trans (sortDesc_perm _).symm
    have hstarts : (allMatches d).Pairwise (fun a b => mstart a.2 ≠ mstart b.2) := by
      apply hdisj.imp_of_mem
      intro a b ha hb hab
      have h1 := hne a ha
      have h2 := hne b hb
      rcases hab with h | h <;> omega
    have hstrict : ∀ e : DetectionMap, List.Perm (allMatches e) (allMatches d) →
        (sortDesc (allMatches e)).Pairwise (fun a b => mstart b.2 < mstart a.2) := by
      intro e hpe
      have hsorted := pairwise_sortDesc (allMatches e)
      have hst : (sortDesc (allMatches e)).Pairwise
          (fun a b => mstart a.2 ≠ mstart b.2) :=
        (((sortDesc_perm (allMatches e)).trans hpe).pairwise_iff
          (fun h => h.symm)).mpr hstarts
      have := hsorted.and hst
      apply this.imp
      intro a b hab
      omega
    have hanti : ∀ (a b : TMatch), mstart b.2 < mstart a.2 → mstart a.2 < mstart b.2 →
        a = b := by
      intro a b h1 h2
      omega
    have heq : sortDesc (allMatches d') = sortDesc (allMatches d) := by
      haveI : IsAntisymm TMatch (fun a b => mstart b.2 < mstart a.2) := ⟨hanti⟩
      exact List.eq_of_perm_of_sorted hsortperm
        (hstrict d' hflat) (hstrict d (List.Perm.refl _))
    rw [heq]

/-- Counterexample to C1 as stated: two zero-width matches at the same
offset are pairwise non-overlapping and in-bounds, yet the redacted text
depends on the category insertion order (the stable descending sort keeps
insertion order among equal starts, so the placeholders come out in
opposite orders). -/
theorem c1_redaction_offsets_counterexample :
    List.Perm [("x", [("", 1, 1)]), ("y", [("", 1, 1)])]
      ([("y", [("", 1, 1)]), ("x", [("", 1, 1)])] : DetectionMap)
    ∧ (allMatches [("x", [("", 1, 1)]), ("y", [("", 1, 1)])]).Pairwise
        (fun a b => mstop a.2 ≤ mstart b.2 ∨ mstop b.2 ≤ mstart a.2)
    ∧ (∀ p ∈ allMatches [("x", [("", 1, 1)]), ("y", [("", 1, 1)])],
        mstart p.2 ≤ mstop p.2 ∧ mstop p.2 ≤ "ab".length)
    ∧ (applyRedaction "ab" [("x", [("", 1, 1)]), ("y", [("", 1, 1)])]).1
      ≠ (applyRedaction "ab" [("y", [("", 1, 1)]), ("x", [("", 1, 1)])]).1 := by
  refine ⟨?_, by decide, by decide, by decide⟩
  exact List.Perm.swap _ _ []

/-- Witness for C1: the amended theorem applied at a concrete text and a
two-category detection map, every hypothesis discharged by computation,
with the permutation conjunct instantiated at the swapped map. -/
theorem c1_redaction_offsets_witness :
    (applyRedaction "abcd" [("email", [("bc", 1, 3)]), ("ssn", [("d", 3, 4)])]).1
      = String.mk (stitchDesc "abcd".data
          (sortDesc (allMatches [("email", [("bc", 1, 3)]), ("ssn", [("d", 3, 4)])])))
    ∧ (applyRedaction "abcd" [("ssn", [("d", 3, 4)]), ("email", [("bc", 1, 3)])]).1
      = (applyRedaction "abcd" [("email", [("bc", 1, 3)]), ("ssn", [("d", 3, 4)])]).1 :=
  ⟨(c1_redaction_offsets "abcd" [("email", [("bc", 1, 3)]), ("ssn", [("d", 3, 4)])]
      (by decide) (by decide) (by decide)).1,
   (c1_redaction_offsets "abcd" [("email", [("bc", 1, 3)]), ("ssn", [("d", 3, 4)])]
      (by decide) (by decide) (by decide)).2
    [("ssn", [("d", 3, 4)]), ("email", [("bc", 1, 3)])] (List.Perm.swap _ _ [])⟩

/-- Looking up a category with a non-empty match list in the audit record
yields the original matched texts, provided category keys are unique (as
they are in a Python dict). -/
theorem itemsOf_lookup (t : String) (ms : List DlpMatch) :
    ∀ d : DetectionMap, (d.map Prod.fst).Nodup → (t, ms) ∈ d → ms ≠ [] →
    (itemsOf d).lookup t = some (ms.map (fun m => m.1)) := by
  intro d
  induction d with
  | nil => intro _ hmem _; cases hmem
  | cons p rest ih =>
    obtain ⟨pt, pms⟩ := p
    intro hnd hmem hms
    rw [List.map_cons, List.nodup_cons] at hnd
    obtain ⟨hnotin, hndrest⟩ := hnd
    rcases List.mem_cons.mp hmem with heq | hmem'
    · obtain ⟨rfl, rfl⟩ := Prod.mk.injEq .. ▸ heq
      simp [itemsOf, List.filter_cons, List.lookup_cons, hms]
    · have htk : t ∈ rest.map Prod.fst :=
        List.mem_map.mpr ⟨(t, ms), hmem', rfl⟩
      have hne' : pt ≠ t := by
        intro h
        rw [h] at hnotin
        exact hnotin htk
      by_cases hpe : pms.isEmpty
      · simp only [itemsOf, List.filter_cons, hpe, Bool.not_true]
        exact ih hndrest hmem' hms
      · have hpe' : pms.isEmpty = false := Bool.eq_false_iff.mpr hpe
        have hbeq : (t == pt) = false := beq_eq_false_iff_ne.mpr (Ne.symm hne')
        have hrec := ih hndrest hmem' hms
        simp only [itemsOf, List.filter_cons, hpe', Bool.not_false, if_true,
          List.map_cons, List.lookup_cons, hbeq] at hrec ⊢
        exact hrec

/-- C8 (amended): for every category of the detection map that carries at
least one match, the redactedItems record of apply_redaction maps that
category to exactly the original matched texts in match-list order (never
the placeholders); categories whose match list is empty are omitted from
the record, which refutes the unrestricted original claim
(c8_redacted_items_counterexample). -/
theorem c8_redacted_items (text : String) (d : DetectionMap) (t : String)
    (ms : List DlpMatch) (hnd : (d.map Prod.fst).Nodup) (hmem : (t, ms) ∈ d)
    (hms : ms ≠ []) :
    ((applyRedaction text d).2).lookup t = some (ms.map (fun m => m.1)) := by
  have hsnd : (applyRedaction text d).2 = itemsOf d := by
    show (d.foldl redactionScan ([], [])).2 = itemsOf d
    rw [redactionScan_foldl d [] []]
    simp
  rw [hsnd]
  exact itemsOf_lookup t ms d hnd hmem hms

/-- Counterexample to C8 as stated: a category present in the detection
map with an empty match list has no entry at all in redactedItems, rather
than an entry holding the (empty) list of its matched texts. -/
theorem c8_redacted_items_counterexample :
    ("email", ([] : List DlpMatch)) ∈ ([("email", [])] : DetectionMap)
    ∧ ((applyRedaction "hi" [("email", [])]).2).lookup "email" = none := by
  constructor
  · exact List.mem_cons_self _ _
  · decide

/-- Witness for C8: the amended theorem at a concrete map, all hypotheses
discharged by computation; the record holds the original text x, not the
placeholder. -/
theorem c8_redacted_items_witness :
    ((applyRedaction "ab" [("email", [("x", 0, 1)])]).2).lookup "email"
      = some ["x"] :=
  c8_redacted_items "ab" [("email", [("x", 0, 1)])] "email" [("x", 0, 1)]
    (by decide) (by decide) (by decide)

/-! ## Text detector (detectors/presidio_adapter.py)

The Presidio analyzer engine is an external collaborator; the adapter is
embedded over an abstract analyzer that either returns recognizer results
or fails, the failure modelling any exception thrown inside the shared
analysis pipeline. -/

/-- A Presidio recognizer result: entity type and offsets into the
analyzed text. -/
structure RecognizerResult where
  entityType : String
  start : Nat
  stop : Nat

/-- The PRESIDIO_TO_PII_TYPE table of presidio_adapter.py lines 13-75. -/
def presidioToPiiType : List (String × String) :=
  [("CREDIT_CARD", "credit_card"), ("CRYPTO", "crypto"), ("DATE_TIME", "date_time"),
   ("EMAIL_ADDRESS", "email"), ("IBAN_CODE", "iban_code"), ("IP_ADDRESS", "ip_address"),
   ("LOCATION", "location"), ("PERSON", "person"), ("PHONE_NUMBER", "phone"),
   ("INTERNATIONAL_PHONE_NUMBER", "phone"), ("MEDICAL_LICENSE", "medical_license"),
   ("URL", "url"), ("NRP", "nrp"),
   ("US_BANK_NUMBER", "us_bank_number"), ("US_DRIVER_LICENSE", "us_driver_license"),
   ("US_ITIN", "us_itin"), ("US_PASSPORT", "us_passport"), ("US_SSN", "ssn"),
   ("UK_NHS", "uk_nhs"), ("UK_NINO", "uk_nino"),
   ("ES_NIF", "es_nif"), ("ES_NIE", "es_nie"),
   ("IT_FISCAL_CODE", "it_fiscal_code"), ("IT_DRIVER_LICENSE", "it_driver_license"),
   ("IT_VAT_CODE", "it_vat_code"), ("IT_PASSPORT", "it_passport"),
   ("IT_IDENTITY_CARD", "it_identity_card"),
   ("PL_PESEL", "pl_pesel"),
   ("SG_NRIC_FIN", "sg_nric_fin"), ("SG_UEN", "sg_uen"),
   ("AU_ABN", "au_abn"), ("AU_ACN", "au_acn"), ("AU_TFN", "au_tfn"),
   ("AU_MEDICARE", "au_medicare"),
   ("IN_PAN", "in_pan"), ("IN_AADHAAR", "in_aadhaar"),
   ("IN_VEHICLE_REGISTRATION", "in_vehicle_registration"), ("IN_VOTER", "in_voter"),
   ("IN_PASSPORT", "in_passport"), ("IN_GSTIN", "in_gstin"),
   ("FI_PERSONAL_IDENTITY_CODE", "fi_personal_identity_code"),
   ("KR_RRN", "kr_rrn"), ("TH_TNIN", "th_tnin"),
   ("API_KEY", "api_key"), ("PEM_KEY", "pem_key"), ("JWT_TOKEN", "jwt_token"),
   ("DATABASE_URL", "database_url"), ("CLOUD_CREDENTIAL", "cloud_credential")]

/-- The external Presidio analyzer engine: either a result list or an
exception. -/
structure PresidioEnv where
  analyze : String → Except String (List RecognizerResult)

/-- The result-conversion loop of _detect_with_presidio, presidio_adapter.py
lines 142-152: keep results whose entity type is in the table, slice the
matched text out of the input by offsets, group by mapped category. -/
def convertResults (text : String) (results : List RecognizerResult) : DetectionMap :=
  results.foldl (fun det r =>
    match presidioToPiiType.lookup r.entityType with
    | none => det
    | some piiType =>
      appendAssoc det piiType
        [(String.mk ((text.data.take r.stop).drop r.start), r.start, r.stop)]) []

/-- _detect_with_presidio, presidio_adapter.py lines 139-152: analyze and
convert; an analyzer exception propagates. -/
def detectWithPresidioInner (env : PresidioEnv) (text : String) :
    Except String DetectionMap :=
  (env.analyze text).map (convertResults text)

/-- detect_with_presidio, presidio_adapter.py lines 155-169: any failure
of the inner detection is re-raised as a RuntimeError with a fixed
message; it is not swallowed into an empty detection map. -/
def detectWithPresidio (env : PresidioEnv) (text : String) :
    Except String DetectionMap :=
  match detectWithPresidioInner env text with
  | Except.ok d => Except.ok d
  | Except.error _ => Except.error "Failed to detect PII with Presidio"

/-! ## Image detector (detectors/image_detector.py) -/

/-- An opaque handle for a decoded PIL image. -/
structure ImageObj where
  handle : Nat

/-- An OCR entity reported by the Presidio image analyzer. -/
structure OcrEntity where
  entityType : String
  start : Nat
  stop : Nat

/-- The external collaborators of detect_pii_in_image: PIL image loading
(an exception is none) and the Presidio image analyzer (which may
throw). -/
structure ImageEnv where
  loadImage : List Nat → Option ImageObj
  imageAnalyze : ImageObj → Except String (List OcrEntity)

/-- The filter `if enabled_types and pii_type not in enabled_types`,
image_detector.py line 76: a None or empty enabled set filters nothing. -/
def enabledSkip : Option (List String) → String → Bool
  | none, _ => false
  | some l, t => !l.isEmpty && !l.contains t

/-- detect_pii_in_image, image_detector.py lines 24-93, for byte input:
load the image, run the image analyzer, map entity types through the
table (defaulting to the lowercased entity type), filter by enabled
types, and record a placeholder matched text with the OCR offsets; every
failure path returns the empty map. -/
def detectPiiInImage (env : ImageEnv) (imageData : List Nat)
    (enabledTypes : Option (List String)) : DetectionMap :=
  match env.loadImage imageData with
  | none => []
  | some img =>
    match env.imageAnalyze img with
    | Except.error _ => []
    | Except.ok entities =>
      entities.foldl (fun res e =>
        let piiType := (presidioToPiiType.lookup e.entityType).getD
          (String.mk (e.entityType.data.map Char.toLower))
        if enabledSkip enabledTypes piiType then res
        else appendAssoc res piiType
          [("[" ++ piiType ++ "_detected_in_image]", e.start, e.stop)]) []

/-- C5 (amended): the image detector never surfaces an internal failure,
returning the empty map when image loading or analysis throws; the text
detector, by contrast, does not return an empty map on an internal
failure but raises a RuntimeError with a fixed message to its caller.
The original claim, which asserts fail-open behavior for both detectors,
is refuted by c5_detector_failopen_counterexample. -/
theorem c5_detector_failopen (env : ImageEnv) (imageData : List Nat)
    (enabledTypes : Option (List String)) (penv : PresidioEnv) (text emsg : String) :
    (env.loadImage imageData = none → detectPiiInImage env imageData enabledTypes = [])
    ∧ (∀ img, env.loadImage imageData = some img →
        env.imageAnalyze img = Except.error emsg →
        detectPiiInImage env imageData enabledTypes = [])
    ∧ (penv.analyze text = Except.error emsg →
        detectWithPresidio penv text =
          Except.error "Failed to detect PII with Presidio") := by
  refine ⟨?_, ?_, ?_⟩
  · intro h
    simp [detectPiiInImage, h]
  · intro img h1 h2
    simp [detectPiiInImage, h1, h2]
  · intro h
    simp [detectWithPresidio, detectWithPresidioInner, h, Except.map]

/-- Counterexample to C5 as stated: a text-detector environment whose
analyzer throws makes detect_with_presidio surface a RuntimeError to the
caller instead of returning an empty detection map. -/
theorem c5_detector_failopen_counterexample :
    detectWithPresidio ⟨fun _ => Except.error "analyzer crashed"⟩ "hello"
      = Except.error "Failed to detect PII with Presidio"
    ∧ detectWithPresidio ⟨fun _ => Except.error "analyzer crashed"⟩ "hello"
      ≠ Except.ok [] := by
  refine ⟨rfl, ?_⟩
  intro hcontra
  simp [detectWithPresidio, detectWithPresidioInner, Except.map] at hcontra

/-- Witness for C5: the amended theorem at concrete failing environments,
each internal hypothesis discharged by computation; the image detector
yields the empty map, the text detector the RuntimeError value. -/
theorem c5_detector_failopen_witness :
    detectPiiInImage ⟨fun _ => none, fun _ => Except.error "ocr down"⟩ [1, 2] none = []
    ∧ detectPiiInImage ⟨fun _ => some ⟨7⟩, fun _ => Except.error "boom"⟩ [1, 2] none = []
    ∧ detectWithPresidio ⟨fun _ => Except.error "boom"⟩ "hi"
        = Except.error "Failed to detect PII with Presidio" :=
  ⟨(c5_detector_failopen ⟨fun _ => none, fun _ => Except.error "ocr down"⟩ [1, 2] none
      ⟨fun _ => Except.error "boom"⟩ "hi" "boom").1 rfl,
   (c5_detector_failopen ⟨fun _ => some ⟨7⟩, fun _ => Except.error "boom"⟩ [1, 2] none
      ⟨fun _ => Except.error "boom"⟩ "hi" "boom").2.1 ⟨7⟩ rfl rfl,
   (c5_detector_failopen ⟨fun _ => none, fun _ => Except.error "ocr down"⟩ [1, 2] none
      ⟨fun _ => Except.error "boom"⟩ "hi" "boom").2.2 rfl⟩

/-! ## Document redaction pipeline (redaction.py lines 132-251, redact_pdf)

The pdfium renderer, the image redactor and the PIL PDF assembler are
external collaborators held in an environment; the combined PDF detector
lives in detectors/pdf_detector.py, which is not under src/, and is
modelled from the spec as an abstract detector function. -/

/-- An opaque rendered page. -/
structure PdfPage where
  pageId : Nat

/-- A rasterized page image with its color mode. -/
structure PageImage where
  imageId : Nat
  colorMode : String

/-- The collaborators of redact_pdf. loadPdf none is a pdfium exception;
detectPdf is modelled from the spec (detect_pii_in_pdf of the missing
detectors/pdf_detector.py: a detector returning a detection map and never
raising); renderPage none is a page-render failure; redactPage none is a
per-page redaction failure; convertRGB and assemble model the PIL color
conversion and PDF assembly of the stitch phase. -/
structure PdfEnv where
  loadPdf : List Nat → Option (List PdfPage)
  detectPdf : List Nat → DetectionMap
  renderPage : PdfPage → Option PageImage
  redactPage : PageImage → Option PageImage
  convertRGB : PageImage → PageImage
  assemble : List PageImage → List Nat

/-- redact_pdf, redaction.py lines 132-251, for byte input: load the
document (an exception returns the input unchanged), detect over the
whole document and return the input unchanged on an empty map, otherwise
render each page (a failed render drops the page), redact each rendered
page (a failed redaction keeps the unredacted render), return the input
unchanged when no page survived, else convert every page to RGB and
assemble the output document. -/
def redactPdf (env : PdfEnv) (pdfData : List Nat) : List Nat :=
  match env.loadPdf pdfData with
  | none => pdfData
  | some pages =>
    if (env.detectPdf pdfData).isEmpty then pdfData
    else
      let redactedPages := pages.filterMap (fun pg =>
        match env.renderPage pg with
        | none => none
        | some img =>
          match env.redactPage img with
          | some r => some r
          | none => some img)
      if redactedPages.isEmpty then pdfData
      else
        env.assemble (redactedPages.map (fun img =>
          if img.colorMode ≠ "RGB" then env.convertRGB img else img))

/-- C9: when the document detector reports zero matches, redact_pdf
returns its input bytes unchanged; the conclusion holds for every
behavior of the renderer, redactor and assembler, which is the no-op
fast path of the pipeline. -/
theorem c9_pdf_noop (env : PdfEnv) (pdfData : List Nat)
    (hdet : env.detectPdf pdfData = []) :
    redactPdf env pdfData = pdfData := by
  unfold redactPdf
  cases h : env.loadPdf pdfData with
  | none => rfl
  | some pages => simp [hdet]

/-- Witness for C9: a concrete environment reporting zero matches returns
the concrete input bytes. -/
theorem c9_pdf_noop_witness :
    redactPdf
      ⟨fun _ => some [⟨0⟩], fun _ => [], fun _ => some ⟨0, "RGB"⟩,
       fun _ => none, id, fun _ => [9]⟩ [1, 2, 3] = [1, 2, 3] :=
  c9_pdf_noop
    ⟨fun _ => some [⟨0⟩], fun _ => [], fun _ => some ⟨0, "RGB"⟩,
     fun _ => none, id, fun _ => [9]⟩ [1, 2, 3] rfl

/-! ## Message model (middleware.py message handling)

LiteLLM messages are duck-typed Python dicts; the embedding models the
shapes the code distinguishes: a bare string message, or a dict whose
content key is absent, a string, a list of typed parts, or any other
value. All remaining dict entries are carried opaquely so that frame
properties about them can be stated. -/

/-- The value of an image_url part: a dict with an optional url entry, or
any non-dict value (which the code treats as an empty url). -/
inductive ImgUrlVal : Type
  | urlDict (url : Option String) (rest : List (String × String))
  | nonDict
  deriving DecidableEq

/-- The value of the image entry of an image part: raw bytes, a string,
or anything else. -/
inductive ImgVal : Type
  | vbytes (b : List Nat)
  | vstr (s : String)
  | vother
  deriving DecidableEq

/-- One multimodal content part, distinguished by its type entry; every
part carries its remaining dict entries opaquely. A text part's text
entry may be absent (none). -/
inductive MsgPart : Type
  | ptext (t : Option String) (rest : List (String × String))
  | pimageUrl (u : ImgUrlVal) (rest : List (String × String))
  | pimage (v : ImgVal) (rest : List (String × String))
  | pother (rest : List (String × String))
  deriving DecidableEq

/-- The content entry of a dict message: absent, a string, a part list,
or any other value (Python None included). -/
inductive MContent : Type
  | mcAbsent
  | mcStr (s : String)
  | mcParts (ps : List MsgPart)
  | mcOther
  deriving DecidableEq

/-- A message: a bare string or a dict with a content entry and opaque
remaining entries. -/
inductive Message : Type
  | mStr (s : String)
  | mDict (content : MContent) (rest : List (String × String))
  deriving DecidableEq

/-- Python str.startswith on the character lists. -/
def strStartsWith (s pre : String) : Bool := pre.data.isPrefixOf s.data

/-- Python str.join with a separator. -/
def joinSep (sep : String) : List String → String
  | [] => ""
  | [x] => x
  | x :: xs => x ++ sep ++ joinSep sep xs

/-- _extract_text_from_messages, middleware.py lines 330-352: collect
non-empty string contents, non-empty text-part values and non-empty bare
string messages, in order. -/
def extractTextParts (msgs : List Message) : List String :=
  msgs.flatMap (fun msg =>
    match msg with
    | Message.mStr s => if s.isEmpty then [] else [s]
    | Message.mDict content _ =>
      match content with
      | MContent.mcStr s => if s.isEmpty then [] else [s]
      | MContent.mcParts ps =>
        ps.flatMap (fun part =>
          match part with
          | MsgPart.ptext t _ =>
            if (t.getD "").isEmpty then [] else [t.getD ""]
          | _ => [])
      | _ => [])

/-- The extracted text blob: the collected parts joined by one space. -/
def extractText (msgs : List Message) : String :=
  joinSep " " (extractTextParts msgs)

/-- Python s.split(sep, 1) at the first occurrence of a character:
none when the character does not occur (the two-element unpacking then
raises, which every caller catches). -/
def splitAtFirst (c : Char) : List Char → Option (List Char × List Char)
  | [] => none
  | h :: t =>
    if h = c then some ([], t)
    else (splitAtFirst c t).map (fun pr => (h :: pr.1, pr.2))

/-- The data-url decoding step shared by both image branches of
_extract_images_from_messages: check the data:image prefix, split at the
first comma and base64-decode the payload; any failure yields nothing. -/
def decodeDataUrl (b64 : String → Option (List Nat)) (s : String) : List (List Nat) :=
  if strStartsWith s "data:image" then
    match splitAtFirst ',' s.data with
    | none => []
    | some pr =>
      match b64 (String.mk pr.2) with
      | none => []
      | some bytes => [bytes]
  else []

/-- _extract_images_from_messages, middleware.py lines 354-415: collect
decoded images from image_url parts with data urls and from image parts
holding bytes or data-url strings; decode failures are skipped. -/
def extractImages (b64 : String → Option (List Nat)) (msgs : List Message) :
    List (List Nat) :=
  msgs.flatMap (fun msg =>
    match msg with
    | Message.mDict (MContent.mcParts ps) _ =>
      ps.flatMap (fun part =>
        match part with
        | MsgPart.pimageUrl u _ =>
          decodeDataUrl b64 (match u with
            | ImgUrlVal.urlDict (some s) _ => s
            | ImgUrlVal.urlDict none _ => ""
            | ImgUrlVal.nonDict => "")
        | MsgPart.pimage v _ =>
          match v with
          | ImgVal.vbytes b => [b]
          | ImgVal.vstr s => decodeDataUrl b64 s
          | ImgVal.vother => []
        | _ => [])
    | _ => [])

/-! ## Python string replacement -/

/-- The non-empty-pattern loop of Python str.replace: at each position
either consume a full occurrence of the pattern or keep one character;
the fuel only needs to cover the string length since every step consumes
at least one character. -/
def pyReplaceAux (old new : List Char) : Nat → List Char → List Char
  | 0, s => s
  | fuel + 1, s =>
    match s with
    | [] => []
    | c :: rest =>
      if old.isPrefixOf (c :: rest) then
        new ++ pyReplaceAux old new fuel ((c :: rest).drop old.length)
      else c :: pyReplaceAux old new fuel rest

/-- Python str.replace(old, new) on character lists, including the
empty-pattern behavior of inserting the replacement at every position. -/
def pyReplace (s old new : List Char) : List Char :=
  if old.isEmpty then new ++ s.flatMap (fun c => c :: new)
  else pyReplaceAux old new s.length s

/-- Python str.replace on strings. -/
def strReplace (s old new : String) : String :=
  String.mk (pyReplace s.data old.data new.data)

/-- Python substring containment on character lists. -/
def containsSeq (needle : List Char) : List Char → Bool
  | [] => needle.isEmpty
  | h :: t => needle.isPrefixOf (h :: t) || containsSeq needle t

theorem containsSeq_nil_left (hay : List Char) : containsSeq [] hay = true := by
  cases hay with
  | nil => rfl
  | cons h t => simp [containsSeq]

theorem containsSeq_append_left (x : List Char) :
    ∀ a b : List Char, containsSeq x (a ++ (x ++ b)) = true := by
  intro a
  induction a with
  | nil =>
    intro b
    cases x with
    | nil => simpa using containsSeq_nil_left b
    | cons c cx =>
      simp only [List.nil_append, containsSeq, Bool.or_eq_true]
      left
      rw [List.isPrefixOf_iff_prefix]
      exact List.prefix_append _ _
  | cons c a' ih =>
    intro b
    simp only [List.cons_append, containsSeq, Bool.or_eq_true]
    right
    exact ih b

/-- Every element of a joined list occurs as a contiguous segment of the
join. -/
theorem joinSep_segment (sep : String) (c : String) :
    ∀ l : List String, c ∈ l →
    ∃ a b : List Char, (joinSep sep l).data = a ++ (c.data ++ b) := by
  intro l
  induction l with
  | nil => intro h; cases h
  | cons x xs ih =>
    intro hmem
    cases xs with
    | nil =>
      rcases List.mem_cons.mp hmem with rfl | h
      · exact ⟨[], [], by simp [joinSep]⟩
      · cases h
    | cons y ys =>
      rcases List.mem_cons.mp hmem with rfl | h
      · refine ⟨[], (sep ++ joinSep sep (y :: ys)).data, ?_⟩
        show (c ++ sep ++ joinSep sep (y :: ys)).data = _
        simp [String.data_append]
      · obtain ⟨a, b, hab⟩ := ih h
        refine ⟨(x ++ sep).data ++ a, b, ?_⟩
        show (x ++ sep ++ joinSep sep (y :: ys)).data = _
        simp [String.data_append, hab]

/-- An identity lemma for the replacement loop: when the pattern does not
occur and the fuel covers the string, nothing changes. -/
theorem pyReplaceAux_id (old new : List Char) :
    ∀ (fuel : Nat) (s : List Char), s.length ≤ fuel →
    containsSeq old s = false → pyReplaceAux old new fuel s = s := by
  intro fuel
  induction fuel with
  | zero =>
    intro s hlen _
    have hnil : s = [] := List.eq_nil_of_length_eq_zero (Nat.le_zero.mp hlen)
    rw [hnil]
    rfl
  | succ f ih =>
    intro s hlen hno
    cases s with
    | nil => rfl
    | cons c rest =>
      simp only [containsSeq, Bool.or_eq_false_iff] at hno
      obtain ⟨hpre, hrest⟩ := hno
      simp only [pyReplaceAux, hpre, Bool.false_eq_true, if_false]
      have hlen' : rest.length ≤ f := by
        simp only [List.length_cons] at hlen
        omega
      rw [ih rest hlen' hrest]

/-- Python replace is the identity when the pattern does not occur in the
string. -/
theorem pyReplace_id (s old new : List Char)
    (hno : containsSeq old s = false) : pyReplace s old new = s := by
  have hold : old.isEmpty = false := by
    cases h : old.isEmpty
    · rfl
    · rw [List.isEmpty_iff.mp h] at hno
      rw [containsSeq_nil_left s] at hno
      cases hno
  unfold pyReplace
  rw [hold]
  simp only [Bool.false_eq_true, if_false]
  exact pyReplaceAux_id old new s.length s (Nat.le_refl _) hno

/-- Rebuilding a string from its own characters is the identity. -/
theorem strMk_data (s : String) : String.mk s.data = s := rfl

/-- strReplace is the identity when the pattern does not occur. -/
theorem strReplace_id (s old new : String)
    (hno : containsSeq old.data s.data = false) : strReplace s old new = s := by
  unfold strReplace
  rw [pyReplace_id s.data old.data new.data hno]

/-! ## Replacing the text blob inside messages (middleware.py 417-444) -/

/-- The text-part branch of _replace_text_in_messages: a text part is
copied with its text entry set to the replaced value of item.get with an
empty-string default (so an absent text entry materializes as present);
every other part is appended unchanged. -/
def replaceMsgPart (old new : String) : MsgPart → MsgPart
  | MsgPart.ptext t rest => MsgPart.ptext (some (strReplace (t.getD "") old new)) rest
  | p => p

/-- _replace_text_in_messages, middleware.py lines 417-444, for one
message: a dict message is copied with only the content entry changed; a
string content gets Python replace; a part list gets the per-part
replacement; an absent content entry reads as the empty string and is
written back replaced; any other content value is left alone. A bare
string message is converted to a dict with only a content entry. -/
def replaceMessage (old new : String) : Message → Message
  | Message.mStr s => Message.mDict (MContent.mcStr (strReplace s old new)) []
  | Message.mDict content rest =>
    match content with
    | MContent.mcStr s => Message.mDict (MContent.mcStr (strReplace s old new)) rest
    | MContent.mcParts ps =>
      Message.mDict (MContent.mcParts (ps.map (replaceMsgPart old new))) rest
    | MContent.mcAbsent => Message.mDict (MContent.mcStr (strReplace "" old new)) rest
    | MContent.mcOther => Message.mDict MContent.mcOther rest

/-- _replace_text_in_messages over the whole message list. -/
def replaceTextInMessages (msgs : List Message) (old new : String) : List Message :=
  msgs.map (replaceMessage old new)

/-- Whether a part is a text part. -/
def partIsText : MsgPart → Bool
  | MsgPart.ptext _ _ => true
  | _ => false

/-- Whether a text part carries a present text entry. -/
def partTextPresent : MsgPart → Bool
  | MsgPart.ptext none _ => false
  | _ => true

/-- A dict message whose content entry is present in a replaceable form:
a string content, a part list all of whose text parts carry a text
value, or a non-string non-list content (left alone by the code). An
absent content entry or a bare string message is excluded, since the
code materializes those. -/
def contentIntact : Message → Bool
  | Message.mStr _ => false
  | Message.mDict MContent.mcAbsent _ => false
  | Message.mDict (MContent.mcParts ps) _ => ps.all partTextPresent
  | Message.mDict _ _ => true

/-- The strings of a message in which the code performs replacement: the
string content or the text values of its text parts. -/
def msgContentStrings : Message → List String
  | Message.mStr s => [s]
  | Message.mDict (MContent.mcStr s) _ => [s]
  | Message.mDict (MContent.mcParts ps) _ =>
    ps.flatMap (fun p => match p with
      | MsgPart.ptext t _ => [t.getD ""]
      | _ => [])
  | Message.mDict _ _ => []

/-- C10 (amended): _replace_text_in_messages preserves message structure
on dict-shaped messages: all dict entries other than content are kept,
string contents and text-part values receive exactly the Python
replacement of the extracted blob, non-text parts are kept identically,
and a message whose content entry is present (with text values present
on all its text parts) and contains no occurrence of the blob is
returned unchanged. The unchanged-message conjunct fails for messages
without a content entry, refuted by c10_replace_structure_counterexample,
because the code materializes content as the replaced empty string. -/
theorem c10_replace_structure (old new : String) :
    (∀ (content : MContent) (rest : List (String × String)), ∃ c2,
      replaceMessage old new (Message.mDict content rest) = Message.mDict c2 rest)
    ∧ (∀ (s : String) (rest : List (String × String)),
      replaceMessage old new (Message.mDict (MContent.mcStr s) rest)
        = Message.mDict (MContent.mcStr (strReplace s old new)) rest)
    ∧ (∀ (ps : List MsgPart) (rest : List (String × String)),
      replaceMessage old new (Message.mDict (MContent.mcParts ps) rest)
        = Message.mDict (MContent.mcParts (ps.map (replaceMsgPart old new))) rest)
    ∧ (∀ p : MsgPart, partIsText p = false → replaceMsgPart old new p = p)
    ∧ (∀ (t : String) (prest : List (String × String)),
      replaceMsgPart old new (MsgPart.ptext (some t) prest)
        = MsgPart.ptext (some (strReplace t old new)) prest)
    ∧ (∀ msg : Message, contentIntact msg = true →
      (∀ s ∈ msgContentStrings msg, containsSeq old.data s.data = false) →
      replaceMessage old new msg = msg) := by
  refine ⟨?_, ?_, ?_, ?_, ?_, ?_⟩
  · intro content rest
    cases content with
    | mcAbsent => exact ⟨_, rfl⟩
    | mcStr s => exact ⟨_, rfl⟩
    | mcParts ps => exact ⟨_, rfl⟩
    | mcOther => exact ⟨_, rfl⟩
  · intro s rest; rfl
  · intro ps rest; rfl
  · intro p hp
    cases p with
    | ptext t rest => simp [partIsText] at hp
    | pimageUrl u rest => rfl
    | pimage v rest => rfl
    | pother rest => rfl
  · intro t prest; rfl
  · intro msg hintact hno
    cases msg with
    | mStr s => simp [contentIntact] at hintact
    | mDict content rest =>
      cases content with
      | mcAbsent => simp [contentIntact] at hintact
      | mcOther => rfl
      | mcStr s =>
        have hs := hno s (by simp [msgContentStrings])
        simp [replaceMessage, strReplace_id s old new hs]
      | mcParts ps =>
        simp only [contentIntact, List.all_eq_true] at hintact
        simp only [replaceMessage, Message.mDict.injEq, MContent.mcParts.injEq,
          and_true]
        rw [List.map_congr_left (g := id), List.map_id]
        intro p hp
        cases p with
        | ptext t prest =>
          cases t with
          | none => exact absurd (hintact _ hp) (by simp [partTextPresent])
          | some tv =>
            have htv : containsSeq old.data tv.data = false := by
              apply hno
              simp only [msgContentStrings, List.mem_flatMap]
              exact ⟨MsgPart.ptext (some tv) prest, hp, by simp⟩
            simp [replaceMsgPart, strReplace_id tv old new htv]
        | pimageUrl u prest => rfl
        | pimage v prest => rfl
        | pother prest => rfl

/-- Counterexample to C10 as stated: a dict message without a content
entry contains no occurrence of the blob, yet the function does not
return it unchanged: the content entry is materialized as the empty
string. -/
theorem c10_replace_structure_counterexample :
    (∀ s ∈ msgContentStrings (Message.mDict MContent.mcAbsent [("role", "user")]),
      containsSeq "x".data s.data = false)
    ∧ replaceTextInMessages [Message.mDict MContent.mcAbsent [("role", "user")]] "x" "y"
      ≠ [Message.mDict MContent.mcAbsent [("role", "user")]] := by
  constructor
  · intro s hs
    simp [msgContentStrings] at hs
  · decide

/-- Witness for C10: the unchanged-message conjunct applied to a concrete
intact message not containing the blob. -/
theorem c10_replace_structure_witness :
    replaceMessage "zz" "w" (Message.mDict (MContent.mcStr "hello") [("role", "user")])
      = Message.mDict (MContent.mcStr "hello") [("role", "user")] :=
  (c10_replace_structure "zz" "w").2.2.2.2.2
    (Message.mDict (MContent.mcStr "hello") [("role", "user")])
    (by decide) (by decide)

/-! ## Mode decision engine (middleware.py _pre_call_hook and
async_pre_call_hook)

The PII detector built on Presidio (which raises through on failure), the
image detector and base64 decoding are collaborators held in an
environment. The kwargs dict that Python mutates in place is threaded
explicitly: every result carries the final kwargs state alongside the
returned pair, and audit events are accumulated as values. -/

/-- Modelled from the spec: the PolicySet of config.py: the global mode
string and the per-category policy mapping read by get_policy; unknown
categories have no policy. -/
structure Config where
  mode : String
  policies : List (String × Policy)

/-- Modelled from the spec: Config.get_policy, an association lookup. -/
def getPolicy (cfg : Config) (t : String) : Option Policy :=
  cfg.policies.lookup t

/-- The kwargs dict entries the hook reads or writes: the messages entry
it overwrites on masking, the extra_headers dict for the warn marker and
the litellm_call_id it reads. -/
structure Kwargs where
  messages : Option (List Message) := none
  extraHeaders : Option (List (String × String)) := none
  litellmCallId : Option String := none
  deriving DecidableEq

/-- Modelled from the spec: the AuditEvent records handed to audit.py,
one per log_detection call (userId, category, action, original items,
request id, mode) and one per log_block call (userId, all blocked
categories, request id, mode). -/
inductive AuditEvent : Type
  | detection (userId piiType action : String) (items : List String)
      (requestId : Option String) (mode : String)
  | block (userId : String) (piiTypes : List String)
      (requestId : Option String) (mode : String)
  deriving DecidableEq

/-- The collaborators of the handler: the text detector (PIIDetector
backed by detect_with_presidio, whose failure raises through), the image
detector (total, it never raises) and base64 decoding. -/
structure DlpEnv where
  textDetect : String → Except String DetectionMap
  imageDetect : List Nat → DetectionMap
  b64decode : String → Option (List Nat)

/-- middleware.py line 125: run the text detector only on non-empty
extracted text; empty text means no detections and no detector call. -/
def textDetectStage (env : DlpEnv) (messages : List Message) :
    Except String DetectionMap :=
  let tc := extractText messages
  if tc.isEmpty then Except.ok [] else env.textDetect tc

/-- middleware.py lines 128-138: detect over every extracted image and
merge each result into the text detections by category. -/
def mergedDetections (env : DlpEnv) (messages : List Message)
    (textDet : DetectionMap) : DetectionMap :=
  ((extractImages env.b64decode messages).map env.imageDetect).foldl
    mergeDetections textDet

/-- One step of the classification loop, middleware.py lines 155-167:
skip categories without an enabled applicable policy, put block actions
into the blocked bucket and mask actions with their matches into the
masked dict. -/
def classifyStep (cfg : Config) (model : String)
    (acc : List String × DetectionMap) (p : String × List DlpMatch) :
    List String × DetectionMap :=
  match getPolicy cfg p.1 with
  | none => acc
  | some pol =>
    if !pol.enabled then acc
    else if !shouldApplyPolicy pol model then acc
    else if pol.action = "block" then (acc.1 ++ [p.1], acc.2)
    else if pol.action = "mask" then (acc.1, setAssoc acc.2 p.1 p.2)
    else acc

/-- The classification pass over the merged detections. -/
def classify (cfg : Config) (model : String) (det : DetectionMap) :
    List String × DetectionMap :=
  det.foldl (classifyStep cfg model) ([], [])

/-- The observe-mode logging loop, middleware.py lines 170-186: one
observe event per detected category with an enabled applicable policy,
carrying the matched texts. -/
def observeEvents (cfg : Config) (userId model : String)
    (callId : Option String) (mode : String) (det : DetectionMap) :
    List AuditEvent :=
  det.flatMap (fun p =>
    match getPolicy cfg p.1 with
    | none => []
    | some pol =>
      if pol.enabled then
        if shouldApplyPolicy pol model then
          [AuditEvent.detection userId p.1 "observe" (p.2.map (fun m => m.1))
            callId mode]
        else []
      else [])

/-- The rest of _pre_call_hook after text detection succeeded,
middleware.py lines 128-272: merge image detections, allow immediately
when nothing was detected, classify, and dispatch on the mode. The
result triple is (returned value or raised exception, final kwargs
state, emitted audit events). -/
def preCallHookBody (env : DlpEnv) (cfg : Config) (userId model : String)
    (messages : List Message) (kw : Kwargs) (textDet : DetectionMap) :
    Except String (Option String × Option Kwargs) × Kwargs × List AuditEvent :=
  let textContent := extractText messages
  let detections := mergedDetections env messages textDet
  if detections.isEmpty then (Except.ok (none, some kw), kw, [])
  else
    let callId := kw.litellmCallId
    let mode := cfg.mode
    let cls := classify cfg model detections
    if mode = "observe" then
      (Except.ok (none, some kw), kw,
       observeEvents cfg userId model callId mode detections)
    else if mode = "warn" then
      let masked :=
        if cls.2.isEmpty then (kw, ([] : List AuditEvent))
        else
          let red := applyRedaction textContent cls.2
          let kwm := { kw with
            messages := some (replaceTextInMessages messages textContent red.1) }
          (kwm, red.2.map (fun q =>
             AuditEvent.detection userId q.1 "mask" q.2 callId mode))
      let warnEvents := cls.1.map (fun t =>
        AuditEvent.detection userId t "warn"
          (((detections.lookup t).getD []).map (fun m => m.1)) callId mode)
      let kw2 :=
        if !cls.1.isEmpty || !cls.2.isEmpty then
          let hs := setAssoc (masked.1.extraHeaders.getD [])
            "X-Ceil-DLP-Warning" "violations_detected"
          { masked.1 with extraHeaders := some hs }
        else masked.1
      (Except.ok (none, some kw2), kw2, masked.2 ++ warnEvents)
    else
      if !cls.1.isEmpty then
        (Except.ok (some ("Request blocked: Detected sensitive data ("
            ++ joinSep ", " cls.1 ++ ")"), none), kw,
         [AuditEvent.block userId cls.1 callId mode])
      else if !cls.2.isEmpty then
        let red := applyRedaction textContent cls.2
        let kw2 := { kw with
          messages := some (replaceTextInMessages messages textContent red.1) }
        (Except.ok (none, some kw2), kw2,
         red.2.map (fun q =>
           AuditEvent.detection userId q.1 "mask" q.2 callId mode))
      else (Except.ok (none, some kw), kw, [])

/-- _pre_call_hook, middleware.py lines 97-272: a text-detector failure
raises before any kwargs mutation or audit emission; otherwise the body
runs. -/
def preCallHookInner (env : DlpEnv) (cfg : Config) (userId model : String)
    (messages : List Message) (kw : Kwargs) :
    Except String (Option String × Option Kwargs) × Kwargs × List AuditEvent :=
  match textDetectStage env messages with
  | Except.error e => (Except.error e, kw, [])
  | Except.ok td => preCallHookBody env cfg userId model messages kw td

/-- async_pre_call_hook, middleware.py lines 274-300: pass through the
inner result; on any exception, return no error together with the kwargs
object in its state at the time of the raise. -/
def asyncPreCallHook (env : DlpEnv) (cfg : Config) (userId model : String)
    (messages : List Message) (kw : Kwargs) :
    (Option String × Option Kwargs) × Kwargs × List AuditEvent :=
  match preCallHookInner env cfg userId model messages kw with
  | (Except.ok r, kwF, evs) => (r, kwF, evs)
  | (Except.error _, kwF, evs) => ((none, some kwF), kwF, evs)

/-- Looking up the key just set by dict assignment yields the new value. -/
theorem setAssoc_lookup {α : Type} (k : String) (v : α) :
    ∀ m : List (String × α), (setAssoc m k v).lookup k = some v := by
  intro m
  induction m with
  | nil => simp [setAssoc, List.lookup_cons]
  | cons p rest ih =>
    obtain ⟨k', v'⟩ := p
    by_cases h : k' = k
    · simp [setAssoc, h, List.lookup_cons]
    · have hbeq : (k == k') = false := beq_eq_false_iff_ne.mpr (Ne.symm h)
      simp [setAssoc, h, List.lookup_cons, hbeq, ih]

/-- C6: when text detection raises (the only fallible engine-internal
operation, which runs before any kwargs mutation or audit emission), the
outer hook catches the exception and returns no error together with the
request kwargs exactly as they were at entry, emitting no audit
events. -/
theorem c6_failopen (env : DlpEnv) (cfg : Config) (userId model : String)
    (messages : List Message) (kw : Kwargs) (e : String)
    (herr : textDetectStage env messages = Except.error e) :
    asyncPreCallHook env cfg userId model messages kw = ((none, some kw), kw, []) := by
  simp [asyncPreCallHook, preCallHookInner, herr]

/-- Witness for C6: a concrete failing detector environment and request;
the hook returns no error and the entry kwargs unchanged. -/
theorem c6_failopen_witness :
    asyncPreCallHook
      ⟨fun _ => Except.error "presidio down", fun _ => [], fun _ => none⟩
      ⟨"enforce", []⟩ "u1" "gpt-4" [Message.mStr "hi"] ⟨none, none, none⟩
      = ((none, some ⟨none, none, none⟩), ⟨none, none, none⟩, []) :=
  c6_failopen
    ⟨fun _ => Except.error "presidio down", fun _ => [], fun _ => none⟩
    ⟨"enforce", []⟩ "u1" "gpt-4" [Message.mStr "hi"] ⟨none, none, none⟩
    "presidio down" rfl

/-- C2: in enforce mode, whenever the classification pass puts at least
one category into the blocked bucket, the hook returns the blocking
message naming every blocked category, a none payload, the kwargs
unchanged from entry (no masking happened, whatever the masked bucket
holds), and exactly one block audit event listing all blocked
categories. -/
theorem c2_enforce_block (env : DlpEnv) (cfg : Config) (userId model : String)
    (messages : List Message) (kw : Kwargs) (td : DetectionMap)
    (htd : textDetectStage env messages = Except.ok td)
    (hmode : cfg.mode = "enforce")
    (hblk : (classify cfg model (mergedDetections env messages td)).1 ≠ []) :
    asyncPreCallHook env cfg userId model messages kw =
      ((some ("Request blocked: Detected sensitive data ("
          ++ joinSep ", " (classify cfg model (mergedDetections env messages td)).1
          ++ ")"), none), kw,
       [AuditEvent.block userId
          (classify cfg model (mergedDetections env messages td)).1
          kw.litellmCallId "enforce"])
    ∧ ∀ c ∈ (classify cfg model (mergedDetections env messages td)).1,
      containsSeq c.data
        ("Request blocked: Detected sensitive data ("
          ++ joinSep ", " (classify cfg model (mergedDetections env messages td)).1
          ++ ")").data = true := by
  have hdet : (mergedDetections env messages td).isEmpty = false := by
    cases hd : mergedDetections env messages td with
    | nil =>
      rw [hd] at hblk
      exact absurd rfl hblk
    | cons a l => rfl
  have hcls1 : (classify cfg model (mergedDetections env messages td)).1.isEmpty
      = false := List.isEmpty_eq_false.mpr hblk
  constructor
  · simp [asyncPreCallHook, preCallHookInner, htd, preCallHookBody, hdet, hmode, hcls1]
  · intro c hc
    obtain ⟨a, b, hab⟩ := joinSep_segment ", " c _ hc
    have hsplit : ("Request blocked: Detected sensitive data ("
        ++ joinSep ", " (classify cfg model (mergedDetections env messages td)).1
        ++ ")").data
        = ("Request blocked: Detected sensitive data (".data ++ a)
          ++ (c.data ++ (b ++ ")".data)) := by
      simp [String.data_append, hab, List.append_assoc]
    rw [hsplit]
    exact containsSeq_append_left c.data _ _

/-- Witness for C2: a concrete enforce-mode request carrying a credit
card number with a block policy; the hook blocks with the message naming
credit_card, leaves the kwargs untouched and emits one block event. -/
theorem c2_enforce_block_witness :
    asyncPreCallHook
      ⟨fun _ => Except.ok [("credit_card", [("4111111111111111", 18, 34)])],
       fun _ => [], fun _ => none⟩
      ⟨"enforce", [("credit_card", ⟨"block", true, none⟩)]⟩ "u1" "gpt-4"
      [Message.mDict (MContent.mcStr "My credit card is 4111111111111111") []]
      ⟨none, none, none⟩ =
      ((some ("Request blocked: Detected sensitive data ("
          ++ joinSep ", " (classify ⟨"enforce", [("credit_card", ⟨"block", true, none⟩)]⟩
              "gpt-4" (mergedDetections
                ⟨fun _ => Except.ok [("credit_card", [("4111111111111111", 18, 34)])],
                 fun _ => [], fun _ => none⟩
                [Message.mDict (MContent.mcStr "My credit card is 4111111111111111") []]
                [("credit_card", [("4111111111111111", 18, 34)])]
                )).1
          ++ ")"), none), (⟨none, none, none⟩ : Kwargs),
       [AuditEvent.block "u1"
          (classify ⟨"enforce", [("credit_card", ⟨"block", true, none⟩)]⟩
              "gpt-4" (mergedDetections
                ⟨fun _ => Except.ok [("credit_card", [("4111111111111111", 18, 34)])],
                 fun _ => [], fun _ => none⟩
                [Message.mDict (MContent.mcStr "My credit card is 4111111111111111") []]
                [("credit_card", [("4111111111111111", 18, 34)])]
                )).1
          none "enforce"]) := by
  exact (c2_enforce_block
    ⟨fun _ => Except.ok [("credit_card", [("4111111111111111", 18, 34)])],
     fun _ => [], fun _ => none⟩
    ⟨"enforce", [("credit_card", ⟨"block", true, none⟩)]⟩ "u1" "gpt-4"
    [Message.mDict (MContent.mcStr "My credit card is 4111111111111111") []]
    ⟨none, none, none⟩ [("credit_card", [("4111111111111111", 18, 34)])]
    rfl rfl (by decide)).1

/-- C7: in warn mode the hook never blocks: the error component is none
and the returned payload is the final kwargs state; every blocked-bucket
category gets a warn audit event and no block event is ever emitted; the
single string-valued warning header is set on the outgoing kwargs
whenever either bucket is non-empty; and when both buckets are empty the
kwargs are returned unchanged. -/
theorem c7_warn_mode (env : DlpEnv) (cfg : Config) (userId model : String)
    (messages : List Message) (kw : Kwargs) (td : DetectionMap)
    (htd : textDetectStage env messages = Except.ok td)
    (hmode : cfg.mode = "warn") :
    (asyncPreCallHook env cfg userId model messages kw).1.1 = none
    ∧ (asyncPreCallHook env cfg userId model messages kw).1.2
      = some (asyncPreCallHook env cfg userId model messages kw).2.1
    ∧ (∀ c ∈ (classify cfg model (mergedDetections env messages td)).1,
        AuditEvent.detection userId c "warn"
          ((((mergedDetections env messages td).lookup c).getD []).map (fun m => m.1))
          kw.litellmCallId "warn"
          ∈ (asyncPreCallHook env cfg userId model messages kw).2.2)
    ∧ (∀ (u : String) (ts : List String) (r : Option String) (m : String),
        AuditEvent.block u ts r m
          ∉ (asyncPreCallHook env cfg userId model messages kw).2.2)
    ∧ (((classify cfg model (mergedDetections env messages td)).1 ≠ []
        ∨ (classify cfg model (mergedDetections env messages td)).2 ≠ []) →
        ((asyncPreCallHook env cfg userId model messages kw).2.1.extraHeaders.getD
          []).lookup "X-Ceil-DLP-Warning" = some "violations_detected")
    ∧ ((classify cfg model (mergedDetections env messages td)).1 = [] →
        (classify cfg model (mergedDetections env messages td)).2 = [] →
        (asyncPreCallHook env cfg userId model messages kw).2.1 = kw) := by
  by_cases hdet : mergedDetections env messages td = []
  · have hres : asyncPreCallHook env cfg userId model messages kw
        = ((none, some kw), kw, []) := by
      simp [asyncPreCallHook, preCallHookInner, htd, preCallHookBody, hdet]
    rw [hres]
    refine ⟨rfl, rfl, ?_, ?_, ?_, ?_⟩
    · intro c hc
      rw [hdet] at hc
      simp [classify] at hc
    · intro u ts r m hmem
      cases hmem
    · intro h
      rw [hdet] at h
      rcases h with h | h <;> simp [classify] at h
    · intro _ _; rfl
  · have hdetF : (mergedDetections env messages td).isEmpty = false :=
      List.isEmpty_eq_false.mpr hdet
    by_cases h2 : (classify cfg model (mergedDetections env messages td)).2.isEmpty
    · by_cases h1 : (classify cfg model (mergedDetections env messages td)).1.isEmpty
      · have hc1 : (classify cfg model (mergedDetections env messages td)).1 = [] :=
          List.isEmpty_iff.mp h1
        have hc2 : (classify cfg model (mergedDetections env messages td)).2 = [] :=
          List.isEmpty_iff.mp h2
        have hres : asyncPreCallHook env cfg userId model messages kw
            = ((none, some kw), kw, []) := by
          simp [asyncPreCallHook, preCallHookInner, htd, preCallHookBody, hdetF,
            hmode, h1, h2, hc1]
        rw [hres]
        refine ⟨rfl, rfl, ?_, ?_, ?_, ?_⟩
        · intro c hc
          rw [hc1] at hc
          cases hc
        · intro u ts r m hmem
          cases hmem
        · intro h
          rcases h with h | h
          · exact absurd hc1 h
          · exact absurd hc2 h
        · intro _ _; rfl
      · have hres : asyncPreCallHook env cfg userId model messages kw
            = ((none, some { kw with extraHeaders := some (setAssoc
                (kw.extraHeaders.getD []) "X-Ceil-DLP-Warning" "violations_detected") }),
               { kw with extraHeaders := some (setAssoc
                (kw.extraHeaders.getD []) "X-Ceil-DLP-Warning" "violations_detected") },
               (classify cfg model (mergedDetections env messages td)).1.map (fun t =>
                 AuditEvent.detection userId t "warn"
                   ((((mergedDetections env messages td).lookup t).getD
                     []).map (fun m => m.1)) kw.litellmCallId "warn")) := by
          simp [asyncPreCallHook, preCallHookInner, htd, preCallHookBody, hdetF,
            hmode, h1, h2]
        rw [hres]
        refine ⟨rfl, rfl, ?_, ?_, ?_, ?_⟩
        · intro c hc
          exact List.mem_map_of_mem _ hc
        · intro u ts r m hmem
          rcases List.mem_map.mp hmem with ⟨t, _, hteq⟩
          cases hteq
        · intro _
          simp [setAssoc_lookup]
        · intro hcon _
          exact absurd hcon (by simpa using h1)
    · have hres : asyncPreCallHook env cfg userId model messages kw
          = ((none, some { kw with
              messages := some (replaceTextInMessages messages (extractText messages)
                (applyRedaction (extractText messages)
                  (classify cfg model (mergedDetections env messages td)).2).1),
              extraHeaders := some (setAssoc (kw.extraHeaders.getD [])
                "X-Ceil-DLP-Warning" "violations_detected") }),
             { kw with
              messages := some (replaceTextInMessages messages (extractText messages)
                (applyRedaction (extractText messages)
                  (classify cfg model (mergedDetections env messages td)).2).1),
              extraHeaders := some (setAssoc (kw.extraHeaders.getD [])
                "X-Ceil-DLP-Warning" "violations_detected") },
             ((applyRedaction (extractText messages)
                 (classify cfg model (mergedDetections env messages td)).2).2.map (fun q =>
               AuditEvent.detection userId q.1 "mask" q.2 kw.litellmCallId "warn"))
             ++ (classify cfg model (mergedDetections env messages td)).1.map (fun t =>
               AuditEvent.detection userId t "warn"
                 ((((mergedDetections env messages td).lookup t).getD
                   []).map (fun m => m.1)) kw.litellmCallId "warn")) := by
        simp [asyncPreCallHook, preCallHookInner, htd, preCallHookBody, hdetF,
          hmode, h2]
      rw [hres]
      refine ⟨rfl, rfl, ?_, ?_, ?_, ?_⟩
      · intro c hc
        exact List.mem_append_right _ (List.mem_map_of_mem _ hc)
      · intro u ts r m hmem
        rcases List.mem_append.mp hmem with hmem | hmem
        · rcases List.mem_map.mp hmem with ⟨q, _, hqeq⟩
          cases hqeq
        · rcases List.mem_map.mp hmem with ⟨t, _, hteq⟩
          cases hteq
      · intro _
        simp [setAssoc_lookup]
      · intro _ hcon
        exact absurd hcon (by simpa using h2)

/-- Witness for C7: a concrete warn-mode request with a masked email
category; the theorem instance yields the non-blocking error component
and the warning header on the outgoing kwargs, with every hypothesis
discharged by computation. -/
theorem c7_warn_mode_witness :
    (asyncPreCallHook
      ⟨fun _ => Except.ok [("email", [("a@b.c", 0, 5)])], fun _ => [], fun _ => none⟩
      ⟨"warn", [("email", ⟨"mask", true, none⟩)]⟩ "u1" "gpt-4"
      [Message.mDict (MContent.mcStr "a@b.c hi") []] ⟨none, none, none⟩).1.1 = none
    ∧ ((asyncPreCallHook
      ⟨fun _ => Except.ok [("email", [("a@b.c", 0, 5)])], fun _ => [], fun _ => none⟩
      ⟨"warn", [("email", ⟨"mask", true, none⟩)]⟩ "u1" "gpt-4"
      [Message.mDict (MContent.mcStr "a@b.c hi") []]
      ⟨none, none, none⟩).2.1.extraHeaders.getD []).lookup "X-Ceil-DLP-Warning"
      = some "violations_detected" :=
  ⟨(c7_warn_mode
      ⟨fun _ => Except.ok [("email", [("a@b.c", 0, 5)])], fun _ => [], fun _ => none⟩
      ⟨"warn", [("email", ⟨"mask", true, none⟩)]⟩ "u1" "gpt-4"
      [Message.mDict (MContent.mcStr "a@b.c hi") []] ⟨none, none, none⟩
      [("email", [("a@b.c", 0, 5)])] rfl rfl).1,
   (c7_warn_mode
      ⟨fun _ => Except.ok [("email", [("a@b.c", 0, 5)])], fun _ => [], fun _ => none⟩
      ⟨"warn", [("email", ⟨"mask", true, none⟩)]⟩ "u1" "gpt-4"
      [Message.mDict (MContent.mcStr "a@b.c hi") []] ⟨none, none, none⟩
      [("email", [("a@b.c", 0, 5)])] rfl rfl).2.2.2.2.1 (Or.inr (by decide))⟩
